import Mathlib

/-!
Verification of the creo-barcode-plugin core against its specification.

The development shallowly embeds the C/C++ sources:
* byte strings (`std::string`, `const char*`) are `List Nat` with entries `< 256`;
* C `int` values are `Int`, with C truncating division/remainder as
  `Int.tdiv` / `Int.tmod`;
* C `double` values are `ℝ` (the grid-layout arithmetic is a single product/sum
  per coordinate, computed by the same expression tree as the source);
* external collaborators (ZXing writer, stb image writer, the COM `insertImage`
  call, the filesystem) are oracle parameters.
-/

namespace CreoBarcode

/-! ## Special-character codec
Embedded from `BarcodeGenerator::encodeSpecialChars` and
`BarcodeGenerator::decodeSpecialChars` in
`creo-barcode-plugin/src/barcode_generator.cpp`. -/

/-- Lowercase hex digit character for a nibble, as produced by
`std::hex << std::setw(2) << std::setfill('0')` in `encodeSpecialChars`. -/
def hexDigitChar (n : Nat) : Nat :=
  if n < 10 then 48 + n else 87 + n

/-- One step of the `encodeSpecialChars` loop: bytes outside `[32,126]` become
`\xNN` (four bytes), a backslash becomes two backslashes, all other bytes pass
through. -/
def encodeByte (c : Nat) : List Nat :=
  if c < 32 ∨ c > 126 then
    [92, 120, hexDigitChar (c / 16), hexDigitChar (c % 16)]
  else if c = 92 then
    [92, 92]
  else
    [c]

/-- `BarcodeGenerator::encodeSpecialChars`: the loop over the input bytes. -/
def encodeSpecialChars : List Nat → List Nat
  | [] => []
  | c :: rest => encodeByte c ++ encodeSpecialChars rest

/-- ASCII hex digit test (the set of characters `std::stoi(-, nullptr, 16)`
accepts as digits): `0-9`, `a-f`, `A-F`. -/
def isHexDigitB (c : Nat) : Bool :=
  (48 ≤ c && c ≤ 57) || (97 ≤ c && c ≤ 102) || (65 ≤ c && c ≤ 70)

/-- Numeric value of an ASCII hex digit. -/
def hexVal (c : Nat) : Nat :=
  if 48 ≤ c ∧ c ≤ 57 then c - 48
  else if 97 ≤ c ∧ c ≤ 102 then c - 87
  else if 65 ≤ c ∧ c ≤ 70 then c - 55
  else 0

/-- C locale `isspace`, the whitespace `strtol` skips. -/
def isSpaceB (c : Nat) : Bool :=
  c = 32 || (9 ≤ c && c ≤ 13)

/-- `std::stoi(hexStr, nullptr, 16)` on the exact two-character substring taken
by `decodeSpecialChars` (strtol semantics: skip whitespace, optional sign, then
a maximal run of hex digits; `none` models the `std::invalid_argument` throw
when no digit is converted).  A `0x` prefix needs no special case here: with
only two characters available, `"0x"` parses as the digit `0` either way. -/
def stoi16 (a b : Nat) : Option Int :=
  if isSpaceB a then
    if isHexDigitB b then some (hexVal b) else none
  else if a = 43 then
    if isHexDigitB b then some (hexVal b) else none
  else if a = 45 then
    if isHexDigitB b then some (-(hexVal b : Int)) else none
  else if isHexDigitB a then
    if isHexDigitB b then some (16 * (hexVal a : Int) + hexVal b)
    else some (hexVal a)
  else none

/-- The `decodeSpecialChars` while-loop.  The first argument is fuel bounding
the number of loop iterations; the loop consumes at least one input byte per
iteration, so fuel equal to the input length (as passed by
`decodeSpecialChars`) never runs out.  `decoded += static_cast<char>(value)`
stores the parsed value reduced mod 256. -/
def decodeAux : Nat → List Nat → List Nat
  | _, [] => []
  | 0, l => l
  | fuel + 1, c :: rest =>
    if c = 92 then
      match rest with
      | [] => [92]
      | d :: rest2 =>
        if d = 92 then 92 :: decodeAux fuel rest2
        else if d = 120 then
          match rest2 with
          | a :: b :: rest3 =>
            (match stoi16 a b with
             | some v => (Int.emod v 256).toNat :: decodeAux fuel rest3
             | none => 92 :: decodeAux fuel rest)
          | _ => 92 :: decodeAux fuel rest
        else 92 :: decodeAux fuel rest
    else c :: decodeAux fuel rest

/-- `BarcodeGenerator::decodeSpecialChars`. -/
def decodeSpecialChars (l : List Nat) : List Nat :=
  decodeAux l.length l

/-! ## Symbology validator
Embedded from `BarcodeGenerator::validateData` in
`creo-barcode-plugin/src/barcode_generator.cpp`.  All character classifiers are
the C-locale `<cctype>` functions on bytes; the source always goes through
`static_cast<unsigned char>`, so bytes in `[0,255]` are the right domain. -/

/-- `BarcodeType` enumeration from `barcode_generator.h`. -/
inductive BarcodeType
  | CODE_128
  | CODE_39
  | QR_CODE
  | DATA_MATRIX
  | EAN_13
deriving DecidableEq

/-- C locale `isdigit` on a byte. -/
def isdigitB (c : Nat) : Bool := 48 ≤ c && c ≤ 57

/-- C locale `isupper` on a byte. -/
def isupperB (c : Nat) : Bool := 65 ≤ c && c ≤ 90

/-- C locale `islower` on a byte. -/
def islowerB (c : Nat) : Bool := 97 ≤ c && c ≤ 122

/-- C locale `isalpha` on a byte. -/
def isalphaB (c : Nat) : Bool := isupperB c || islowerB c

/-- C locale `isalnum` on a byte. -/
def isalnumB (c : Nat) : Bool := isalphaB c || isdigitB c

/-- C locale `toupper` on a byte. -/
def toupperB (c : Nat) : Nat := if 97 ≤ c ∧ c ≤ 122 then c - 32 else c

/-- The per-character test of the `CODE_39` loop in `validateData`: the loop
returns `false` on the first character failing either check, so the whole loop
is `List.all` of the conjunction of the two checks. -/
def code39CharOk (c : Nat) : Bool :=
  (isalnumB (toupperB c) || c == 32 || c == 45 || c == 46 || c == 36 ||
    c == 47 || c == 43 || c == 37) &&
  !(isalphaB c && islowerB c)

/-- `BarcodeGenerator::validateData`.  The C++ `default:` case is unreachable:
the `BarcodeType` enumeration has exactly the five listed values. -/
def validateData (data : List Nat) (t : BarcodeType) : Bool :=
  if data.isEmpty then false
  else
    match t with
    | .CODE_39 => data.all code39CharOk
    | .EAN_13 => (data.length == 12 || data.length == 13) && data.all isdigitB
    | .CODE_128 => true
    | .QR_CODE => true
    | .DATA_MATRIX => true

/-- Spec-side definition (from the claim's wording, for C5): the Code 39
character set of uppercase letters, digits, and the symbols
`- . $ / + %` and space. -/
def code39Allowed (c : Nat) : Bool :=
  isupperB c || isdigitB c || c == 45 || c == 46 || c == 36 || c == 47 ||
    c == 43 || c == 37 || c == 32

/-! ## Code 128 checksum and the dependency-free pure-C generator
Embedded from `src/barcode_pure_c.c`.  C `char` is signed there, but every
byte in `[128,255]` is negative as `char` and so fails `c >= 32 && c <= 127`
exactly when the byte value fails `32 ≤ c ∧ c ≤ 127`; the byte-level
definition below therefore computes the same values. -/

/-- `code128b_value`: subset-B symbol value of a character, silently 0 for
characters outside `[32,127]`. -/
def code128b_value (c : Nat) : Int :=
  if 32 ≤ c ∧ c ≤ 127 then (c : Int) - 32 else 0

/-- The accumulation loop of `calculate_checksum`: weighted sum of symbol
values, position `i` (0-based) weighted by `i + 1`. -/
def checksumAux : List Nat → Nat → Int
  | [], _ => 0
  | c :: rest, i => code128b_value c * ((i : Int) + 1) + checksumAux rest (i + 1)

/-- `calculate_checksum`: `(startCode + Σ value(data[i]) * (i+1)) % 103`, with
the C `%` (truncating remainder, `Int.tmod`). -/
def calculate_checksum (data : List Nat) (startCode : Int) : Int :=
  Int.tmod (startCode + checksumAux data 0) 103

/-- The output of a successful `barcode_generate_pure_c` call: the BMP header
dimensions actually written, and, abstracting the pixel rasterization (whose
pixel content no claim mentions), the sequence of Code 128 symbol values drawn
left to right (START, data symbols, checksum, STOP). -/
structure PureCImage where
  width : Int
  height : Int
  symbols : List Int
deriving DecidableEq

/-- `barcode_generate_pure_c` from `src/barcode_pure_c.c`.  `mallocOk` and
`fopenOk` are oracles for the two external failure points (`malloc` returning
NULL, `fopen` failing); `outputPath` is modeled as a non-NULL opaque value.
A NUL-free byte string models the C string, so `data[0] == '\0'` is `data = []`.
Symbol draws keep the source's array-bounds guards (`value >= 0 && value < 106`
for data symbols, `checksum >= 0 && checksum < 106` for the checksum). -/
def barcode_generate_pure_c (data : List Nat) (width height margin : Int)
    (mallocOk fopenOk : Bool) : Except Int PureCImage :=
  if data.isEmpty then .error (-1)
  else if (data.length : Int) > 80 then .error (-2)
  else
    let dataLen : Int := (data.length : Int)
    let totalModules := 11 + dataLen * 11 + 11 + 13
    let barcodeWidth := width - 2 * margin
    let moduleWidth0 := Int.tdiv barcodeWidth totalModules
    let moduleWidth := if moduleWidth0 < 2 then 2 else moduleWidth0
    let barcodeWidth2 := moduleWidth * totalModules
    let width2 := barcodeWidth2 + 2 * margin
    let height2 := if height < 60 then 60 else height
    if !mallocOk then .error (-3)
    else
      let chk := calculate_checksum data 104
      let dataSymbols :=
        (data.map code128b_value).filter fun v => decide (0 ≤ v) && decide (v < 106)
      let chkSymbols := if 0 ≤ chk ∧ chk < 106 then [chk] else []
      if !fopenOk then .error (-4)
      else .ok ⟨width2, height2, 104 :: (dataSymbols ++ chkSymbols ++ [106])⟩

/-- The error message `barcode_generate_c` stores in `g_purec_error` for each
result code (the `default:` branch formats an unknown code; no reachable code
produces it). -/
def pureCErrorMessage (code : Int) : String :=
  if code = 0 then ""
  else if code = -1 then "Invalid parameters"
  else if code = -2 then "Data too long (max 80 characters)"
  else if code = -3 then "Memory allocation failed"
  else if code = -4 then "Cannot create output file"
  else "Unknown error"

/-- `barcode_generate_c`, the wrapper: forwards to `barcode_generate_pure_c`
(ignoring its `type` parameter) and returns the result code paired with the
stored error message. -/
def barcode_generate_c (data : List Nat) (btype : Int) (width height margin : Int)
    (mallocOk fopenOk : Bool) : Int × String :=
  let result :=
    match barcode_generate_pure_c data width height margin mallocOk fopenOk with
    | .ok _ => 0
    | .error c => c
  (result, pureCErrorMessage result)

/-! ## The C++ raster generator
Embedded from `BarcodeGenerator::generate` in
`creo-barcode-plugin/src/barcode_generator.cpp`.  The ZXing
`MultiFormatWriter::encode` call is an oracle returning either a bit matrix or
an exception message; the `stbi_write_png` call is an oracle boolean.  A
successful result is the raster handed to the PNG writer (its dimensions and
greyscale pixel buffer). -/

/-- `ErrorCode` enumeration from `error_codes.h`. -/
inductive ErrorCode
  | SUCCESS
  | VERSION_INCOMPATIBLE
  | NO_DRAWING_OPEN
  | NO_MODEL_ASSOCIATED
  | BARCODE_GENERATION_FAILED
  | IMAGE_INSERT_FAILED
  | CONFIG_LOAD_FAILED
  | CONFIG_SAVE_FAILED
  | FILE_NOT_FOUND
  | INVALID_BARCODE_TYPE
  | INVALID_DATA
  | BATCH_PARTIAL_FAILURE
  | DECODE_FAILED
  | INVALID_SIZE
  | DATA_OUT_OF_SYNC
  | SYNC_CHECK_FAILED
deriving DecidableEq

/-- `BarcodeConfig` from `barcode_generator.h`. -/
structure BarcodeConfig where
  type : BarcodeType
  width : Int
  height : Int
  margin : Int
  showText : Bool
  dpi : Int

/-- The bit matrix returned by the ZXing writer oracle. -/
structure BitMatrix where
  width : Nat
  height : Nat
  get : Nat → Nat → Bool

/-- A greyscale raster: `width`, `height` and a row-major 1-byte-per-pixel
buffer, as handed to `stbi_write_png`. -/
structure RasterImage where
  width : Nat
  height : Nat
  pixels : List Nat
deriving DecidableEq

/-- The pixel extraction loop of `generate`: black (0) where the matrix bit is
set, white (255) elsewhere, row-major. -/
def matrixPixels (m : BitMatrix) : List Nat :=
  (List.range m.height).flatMap fun y =>
    (List.range m.width).map fun x => if m.get x y then 0 else 255

/-- The anonymous-namespace `scaleImage` helper: nearest-neighbor rescale.
The source computes `srcX = int(x * (srcWidth/dstWidth))` in `double`
arithmetic; this is its exact rational counterpart `x * srcWidth / dstWidth`.
No claim depends on the scaled pixel values, only on the output extent. -/
def scaleImage (src : List Nat) (srcWidth srcHeight dstWidth dstHeight : Nat) :
    List Nat :=
  (List.range dstHeight).flatMap fun y =>
    (List.range dstWidth).map fun x =>
      src.getD ((y * srcHeight / dstHeight) * srcWidth + x * srcWidth / dstWidth) 0

/-- `BarcodeGenerator::generate`.  Returns the error recorded in `lastError_`
on failure, or the raster written to `outputPath` on success. -/
def generate (data : List Nat) (config : BarcodeConfig)
    (writer : Except String BitMatrix) (writeOk : Bool) :
    Except ErrorCode RasterImage :=
  if data.isEmpty then .error .INVALID_DATA
  else if config.width ≤ 0 ∨ config.height ≤ 0 then .error .INVALID_SIZE
  else if !(validateData data config.type) then .error .INVALID_DATA
  else
    match writer with
    | .error _ => .error .BARCODE_GENERATION_FAILED
    | .ok matrix =>
        let w := config.width.toNat
        let h := config.height.toNat
        let pixels := matrixPixels matrix
        let finalPixels :=
          if matrix.width ≠ w ∨ matrix.height ≠ h then
            scaleImage pixels matrix.width matrix.height w h
          else pixels
        if writeOk then .ok ⟨w, h, finalPixels⟩
        else .error .BARCODE_GENERATION_FAILED

/-- Projection used to state facts about a pure-C result's dimensions. -/
def pureCDims : Except Int PureCImage → Option (Int × Int)
  | .ok img => some (img.width, img.height)
  | .error _ => none

/-! ## Grid layout and batch insertion
Embedded from `calculateGridPosition`, `CreoComBridge::batchInsertImages` and
`CreoComBridge::batchInsertImagesGrid` in
`creo-barcode-plugin/src/creo_com_bridge.cpp`.  The COM `insertImage` call is
an oracle indexed by the loop iteration (the external host may answer
differently on every call); `lastErr i` is the `m_lastError` string after a
failing call `i`. -/

/-- `GridPosition` from `creo_com_bridge.h`. -/
structure GridPosition where
  x : ℝ
  y : ℝ

/-- `calculateGridPosition`: clamp `columns` to at least 1, then
`col = index % columns`, `row = index / columns` with C truncating `%` and `/`,
and the position arithmetic in `double` (modeled in `ℝ`, same expression
tree). -/
def calculateGridPosition (index columns : Int)
    (spacing startX startY width height : ℝ) : GridPosition :=
  let cols := if columns < 1 then 1 else columns
  let col := Int.tmod index cols
  let row := Int.tdiv index cols
  ⟨startX + (col : ℝ) * (width + spacing), startY - (row : ℝ) * (height + spacing)⟩

/-- `GridLayoutParams` from `creo_com_bridge.h`. -/
structure GridLayoutParams where
  startX : ℝ
  startY : ℝ
  width : ℝ
  height : ℝ
  columns : Int
  spacing : ℝ

/-- `BatchInsertResult` from `creo_com_bridge.h`. -/
structure BatchInsertResult where
  totalCount : Int
  successCount : Int
  failCount : Int
  failedPaths : List String
  errorMessages : List String

/-- `BatchImageInfo` from `creo_com_bridge.h`. -/
structure BatchImageInfo where
  imagePath : String
  x : ℝ
  y : ℝ
  width : ℝ
  height : ℝ

/-- The loop of `batchInsertImagesGrid`, iteration index `i`: compute the grid
position, try the insertion, and either bump the success count or record the
failure and continue with the remaining images. -/
def gridInsertLoop (paths : List String) (i : Nat) (columns : Int)
    (params : GridLayoutParams) (insertOk : Nat → GridPosition → Bool)
    (lastErr : Nat → String) : Int × Int × List String × List String :=
  match paths with
  | [] => (0, 0, [], [])
  | path :: rest =>
      let pos := calculateGridPosition (i : Int) columns params.spacing
        params.startX params.startY params.width params.height
      let r := gridInsertLoop rest (i + 1) columns params insertOk lastErr
      if insertOk i pos then (r.1 + 1, r.2.1, r.2.2.1, r.2.2.2)
      else (r.1, r.2.1 + 1, path :: r.2.2.1, lastErr i :: r.2.2.2)

/-- `CreoComBridge::batchInsertImagesGrid`. -/
def batchInsertImagesGrid (imagePaths : List String) (params : GridLayoutParams)
    (insertOk : Nat → GridPosition → Bool) (lastErr : Nat → String) :
    BatchInsertResult :=
  if imagePaths.isEmpty then ⟨(imagePaths.length : Int), 0, 0, [], []⟩
  else
    let columns := if params.columns < 1 then 1 else params.columns
    let r := gridInsertLoop imagePaths 0 columns params insertOk lastErr
    ⟨(imagePaths.length : Int), r.1, r.2.1, r.2.2.1, r.2.2.2⟩

/-- The loop of `batchInsertImages`. -/
def insertLoop (images : List BatchImageInfo) (i : Nat) (insertOk : Nat → Bool)
    (lastErr : Nat → String) : Int × Int × List String × List String :=
  match images with
  | [] => (0, 0, [], [])
  | img :: rest =>
      let r := insertLoop rest (i + 1) insertOk lastErr
      if insertOk i then (r.1 + 1, r.2.1, r.2.2.1, r.2.2.2)
      else (r.1, r.2.1 + 1, img.imagePath :: r.2.2.1, lastErr i :: r.2.2.2)

/-- `CreoComBridge::batchInsertImages`. -/
def batchInsertImages (images : List BatchImageInfo) (insertOk : Nat → Bool)
    (lastErr : Nat → String) : BatchInsertResult :=
  if images.isEmpty then ⟨(images.length : Int), 0, 0, [], []⟩
  else
    let r := insertLoop images 0 insertOk lastErr
    ⟨(images.length : Int), r.1, r.2.1, r.2.2.1, r.2.2.2⟩

/-! ## Batch processor
Embedded from `BatchProcessor::process` in `src/batch_processor.cpp`.  The
`std::ifstream(...).good()` probe is an oracle on the file path; the progress
callback is modeled by returning the list of `(current, total)` invocations in
call order. -/

/-- `BatchResult` from `batch_processor.h`. -/
structure BatchResult where
  filePath : String
  success : Bool
  errorMessage : String
deriving DecidableEq

/-- The loop of `BatchProcessor::process`: bump `current`, invoke the progress
callback, then record this item's outcome and continue regardless of it. -/
def processLoop (files : List String) (current total : Nat)
    (fileGood : String → Bool) : List BatchResult × List (Nat × Nat) :=
  match files with
  | [] => ([], [])
  | f :: rest =>
      let cur := current + 1
      let r := processLoop rest cur total fileGood
      let item :=
        if fileGood f then BatchResult.mk f true ""
        else BatchResult.mk f false "File not found"
      (item :: r.1, (cur, total) :: r.2)

/-- `BatchProcessor::process` on a queue `files`: the result list and the
progress-callback invocation trace.  `config` is carried but, as in the
source's current placeholder body, not consulted per item. -/
def process (files : List String) (config : BarcodeConfig)
    (fileGood : String → Bool) : List BatchResult × List (Nat × Nat) :=
  processLoop files 0 files.length fileGood

theorem decodeAux_nil (fuel : Nat) : decodeAux fuel [] = [] := by
  cases fuel <;> rfl

theorem decodeAux_cons_ne (fuel c : Nat) (rest : List Nat) (h : c ≠ 92) :
    decodeAux (fuel + 1) (c :: rest) = c :: decodeAux fuel rest := by
  simp [decodeAux, h]

theorem decodeAux_esc_last (fuel : Nat) : decodeAux (fuel + 1) [92] = [92] := rfl

theorem decodeAux_esc_esc (fuel : Nat) (rest : List Nat) :
    decodeAux (fuel + 1) (92 :: 92 :: rest) = 92 :: decodeAux fuel rest := rfl

theorem decodeAux_esc_x (fuel a b : Nat) (rest3 : List Nat) :
    decodeAux (fuel + 1) (92 :: 120 :: a :: b :: rest3) =
      (match stoi16 a b with
       | some v => (Int.emod v 256).toNat :: decodeAux fuel rest3
       | none => 92 :: decodeAux fuel (120 :: a :: b :: rest3)) := rfl

theorem decodeAux_esc_x_end (fuel : Nat) :
    decodeAux (fuel + 1) [92, 120] = 92 :: decodeAux fuel [120] := rfl

theorem decodeAux_esc_x_one (fuel a : Nat) :
    decodeAux (fuel + 1) [92, 120, a] = 92 :: decodeAux fuel [120, a] := rfl

theorem decodeAux_esc_other (fuel d : Nat) (rest2 : List Nat)
    (h1 : d ≠ 92) (h2 : d ≠ 120) :
    decodeAux (fuel + 1) (92 :: d :: rest2) = 92 :: decodeAux fuel (d :: rest2) := by
  simp [decodeAux, h1, h2]

/-- Extra fuel does not change `decodeAux` while enough fuel remains. -/
theorem decodeAux_succ (fuel : Nat) :
    ∀ l : List Nat, l.length ≤ fuel → decodeAux (fuel + 1) l = decodeAux fuel l := by
  induction fuel with
  | zero =>
      intro l hl
      have : l = [] := List.length_eq_zero.mp (Nat.le_zero.mp hl)
      subst this
      rfl
  | succ g ih =>
      intro l hl
      match l with
      | [] => rfl
      | c :: rest =>
        simp only [List.length_cons] at hl
        by_cases hc : c = 92
        · subst hc
          match rest with
          | [] => rfl
          | d :: rest2 =>
            simp only [List.length_cons] at hl
            by_cases hd : d = 92
            · subst hd
              rw [decodeAux_esc_esc, decodeAux_esc_esc, ih rest2 (by omega)]
            · by_cases hx : d = 120
              · subst hx
                match rest2 with
                | [] =>
                    rw [decodeAux_esc_x_end, decodeAux_esc_x_end,
                      ih [120] (by simp at hl ⊢; omega)]
                | [a] =>
                    rw [decodeAux_esc_x_one, decodeAux_esc_x_one,
                      ih [120, a] (by simp at hl ⊢; omega)]
                | a :: b :: rest3 =>
                    simp only [List.length_cons] at hl
                    rw [decodeAux_esc_x, decodeAux_esc_x]
                    cases stoi16 a b with
                    | some v => rw [ih rest3 (by omega)]
                    | none => rw [ih (120 :: a :: b :: rest3) (by simp; omega)]
              · rw [decodeAux_esc_other g d rest2 hd hx,
                  decodeAux_esc_other (g + 1) d rest2 hd hx,
                  ih (d :: rest2) (by simp; omega)]
        · rw [decodeAux_cons_ne g c rest hc, decodeAux_cons_ne (g + 1) c rest hc,
            ih rest (by omega)]

/-- `decodeAux` with any sufficient fuel agrees with `decodeSpecialChars`. -/
theorem decodeAux_eq_decode (fuel : Nat) :
    ∀ l : List Nat, l.length ≤ fuel → decodeAux fuel l = decodeSpecialChars l := by
  induction fuel with
  | zero =>
      intro l hl
      have : l = [] := List.length_eq_zero.mp (Nat.le_zero.mp hl)
      subst this; rfl
  | succ g ih =>
      intro l hl
      rcases Nat.lt_or_ge l.length (g + 1) with h | h
      · rw [decodeAux_succ g l (by omega), ih l (by omega)]
      · have hlen : l.length = g + 1 := by omega
        rw [decodeSpecialChars, hlen]

theorem decode_nil : decodeSpecialChars [] = [] := rfl

theorem decode_cons_ne (c : Nat) (xs : List Nat) (h : c ≠ 92) :
    decodeSpecialChars (c :: xs) = c :: decodeSpecialChars xs := by
  show decodeAux (xs.length + 1) (c :: xs) = _
  rw [decodeAux_cons_ne _ _ _ h]
  rfl

theorem decode_esc_esc (xs : List Nat) :
    decodeSpecialChars (92 :: 92 :: xs) = 92 :: decodeSpecialChars xs := by
  show decodeAux (xs.length + 1 + 1) (92 :: 92 :: xs) = _
  rw [decodeAux_esc_esc]
  rw [decodeAux_eq_decode (xs.length + 1) xs (by omega)]

theorem decode_esc_x (a b : Nat) (xs : List Nat) :
    decodeSpecialChars (92 :: 120 :: a :: b :: xs) =
      (match stoi16 a b with
       | some v => (Int.emod v 256).toNat :: decodeSpecialChars xs
       | none => 92 :: decodeSpecialChars (120 :: a :: b :: xs)) := by
  show decodeAux (xs.length + 3 + 1) (92 :: 120 :: a :: b :: xs) = _
  rw [decodeAux_esc_x]
  cases stoi16 a b with
  | some v => rw [decodeAux_eq_decode (xs.length + 3) xs (by omega)]
  | none =>
      rw [decodeAux_eq_decode (xs.length + 3) (120 :: a :: b :: xs) (by simp)]

theorem decode_esc_other (d : Nat) (xs : List Nat) (h1 : d ≠ 92) (h2 : d ≠ 120) :
    decodeSpecialChars (92 :: d :: xs) = 92 :: decodeSpecialChars (d :: xs) := by
  show decodeAux (xs.length + 1 + 1) (92 :: d :: xs) = _
  rw [decodeAux_esc_other _ _ _ h1 h2]
  rfl

theorem hexDigitChar_bounds (n : Nat) (h : n < 16) :
    48 ≤ hexDigitChar n ∧ hexDigitChar n ≤ 102 := by
  unfold hexDigitChar
  split_ifs <;> omega

theorem isHexDigitB_hexDigitChar (n : Nat) (h : n < 16) :
    isHexDigitB (hexDigitChar n) = true := by
  unfold hexDigitChar isHexDigitB
  split_ifs with h1 <;> simp <;> omega

theorem hexVal_hexDigitChar (n : Nat) (h : n < 16) :
    hexVal (hexDigitChar n) = n := by
  unfold hexDigitChar hexVal
  split_ifs <;> omega

theorem stoi16_of_hexDigits (a b : Nat) (ha : isHexDigitB a = true)
    (hb : isHexDigitB b = true) :
    stoi16 a b = some (16 * (hexVal a : Int) + hexVal b) := by
  have ha' : 48 ≤ a := by
    simp [isHexDigitB] at ha
    omega
  unfold stoi16
  rw [if_neg (by simp [isSpaceB]; omega), if_neg (by omega), if_neg (by omega),
    if_pos ha, if_pos hb]

/-- Decoding undoes one `encodeByte` step, whatever follows it. -/
theorem decode_encodeByte (c : Nat) (xs : List Nat) (h : c < 256) :
    decodeSpecialChars (encodeByte c ++ xs) = c :: decodeSpecialChars xs := by
  unfold encodeByte
  split_ifs with h1 h2
  · have e1 : c / 16 < 16 := by omega
    have e2 : c % 16 < 16 := Nat.mod_lt _ (by norm_num)
    simp only [List.cons_append, List.nil_append]
    rw [decode_esc_x]
    rw [stoi16_of_hexDigits _ _ (isHexDigitB_hexDigitChar _ e1)
      (isHexDigitB_hexDigitChar _ e2)]
    rw [hexVal_hexDigitChar _ e1, hexVal_hexDigitChar _ e2]
    have hv : 16 * ((c / 16 : Nat) : Int) + ((c % 16 : Nat) : Int) = (c : Int) := by
      have := Nat.div_add_mod c 16
      push_cast
      omega
    rw [hv]
    have hm : Int.emod (c : Int) 256 = (c : Int) :=
      Int.emod_eq_of_lt (by positivity) (by exact_mod_cast h)
    show ((c : Int).emod 256).toNat :: decodeSpecialChars xs = c :: decodeSpecialChars xs
    rw [hm, Int.toNat_natCast]
  · subst h2
    simp only [List.cons_append, List.nil_append]
    exact decode_esc_esc xs
  · simp only [List.cons_append, List.nil_append]
    exact decode_cons_ne c xs (by omega)

theorem encodeByte_printable (c : Nat) (h : c < 256) :
    ∀ b ∈ encodeByte c, 32 ≤ b ∧ b ≤ 126 := by
  intro b hb
  unfold encodeByte at hb
  split_ifs at hb with h1 h2
  · have e1 : c / 16 < 16 := by omega
    have e2 : c % 16 < 16 := Nat.mod_lt _ (by norm_num)
    have b1 := hexDigitChar_bounds _ e1
    have b2 := hexDigitChar_bounds _ e2
    simp only [List.mem_cons, List.not_mem_nil, or_false] at hb
    rcases hb with rfl | rfl | rfl | rfl <;> omega
  · simp only [List.mem_cons, List.not_mem_nil, or_false] at hb
    rcases hb with rfl | rfl <;> omega
  · simp only [List.mem_cons, List.not_mem_nil, or_false] at hb
    subst hb
    omega

/-- C1.  Special-character codec invertibility: decoding inverts encoding on
every byte string, and the encoded form uses only printable ASCII bytes in
`[32,126]`. -/
theorem specialCharsCodec_roundtrip (l : List Nat) (h : ∀ c ∈ l, c < 256) :
    decodeSpecialChars (encodeSpecialChars l) = l ∧
    ∀ b ∈ encodeSpecialChars l, 32 ≤ b ∧ b ≤ 126 := by
  induction l with
  | nil => exact ⟨rfl, by simp [encodeSpecialChars]⟩
  | cons c rest ih =>
      have hc : c < 256 := h c (List.mem_cons_self c rest)
      have hrest : ∀ x ∈ rest, x < 256 := fun x hx => h x (List.mem_cons_of_mem c hx)
      obtain ⟨ih1, ih2⟩ := ih hrest
      constructor
      · show decodeSpecialChars (encodeByte c ++ encodeSpecialChars rest) = _
        rw [decode_encodeByte c _ hc, ih1]
      · intro b hb
        show 32 ≤ b ∧ b ≤ 126
        rcases List.mem_append.mp hb with hb' | hb'
        · exact encodeByte_printable c hc b hb'
        · exact ih2 b hb'

/-- Witness for C1 at the concrete byte string `[65, 1, 92, 200]` (a printable
letter, a control byte, a backslash, and a high byte). -/
theorem specialCharsCodec_roundtrip_witness :
    (∀ c ∈ ([65, 1, 92, 200] : List Nat), c < 256) ∧
    (decodeSpecialChars (encodeSpecialChars [65, 1, 92, 200]) = [65, 1, 92, 200] ∧
     ∀ b ∈ encodeSpecialChars [65, 1, 92, 200], 32 ≤ b ∧ b ≤ 126) :=
  ⟨by decide, specialCharsCodec_roundtrip [65, 1, 92, 200] (by decide)⟩

theorem hexVal_lt (c : Nat) : hexVal c < 16 := by
  unfold hexVal
  split_ifs <;> omega

/-- C9 counterexample.  On the input `"\x1g"` (bytes `[92,120,49,103]`) the two
characters following `\x` are not both valid hex digits, yet decoding does not
keep the backslash literal and does not preserve the malformed sequence: it
consumes all four characters and produces the single byte 1 (the value
`std::stoi` parses from the leading digit `1`, dropping the `g`). -/
theorem decode_malformed_escape_counterexample :
    decodeSpecialChars [92, 120, 49, 103] = [1] ∧
    decodeSpecialChars [92, 120, 49, 103] ≠ [92, 120, 49, 103] := by
  decide

/-- C9 (amended).  Decoding of a `\x` escape is lenient, but the backslash is
kept literal (advancing one character, preserving the rest unchanged) only
when `std::stoi` converts no digit from the two-character substring — when its
first character is not a hex digit, whitespace, or a sign.  When the first
character is a hex digit but the second is not, the decoder instead consumes
all four characters and emits the one-digit value, dropping the second
character.  A backslash followed by anything other than `x` or a second
backslash is kept literally, a trailing backslash is kept, and `\\` decodes to
a single backslash.  There is never a parse error. -/
theorem decode_malformed_escape_policy (a b d : Nat) (xs : List Nat) :
    (isHexDigitB a = false → isSpaceB a = false → a ≠ 43 → a ≠ 45 →
      decodeSpecialChars (92 :: 120 :: a :: b :: xs) =
        92 :: decodeSpecialChars (120 :: a :: b :: xs)) ∧
    (isHexDigitB a = true → isHexDigitB b = false →
      decodeSpecialChars (92 :: 120 :: a :: b :: xs) =
        hexVal a :: decodeSpecialChars xs) ∧
    (d ≠ 92 → d ≠ 120 →
      decodeSpecialChars (92 :: d :: xs) = 92 :: decodeSpecialChars (d :: xs)) ∧
    decodeSpecialChars [92] = [92] ∧
    decodeSpecialChars (92 :: 92 :: xs) = 92 :: decodeSpecialChars xs := by
  refine ⟨?_, ?_, ?_, rfl, decode_esc_esc xs⟩
  · intro ha hsp h43 h45
    rw [decode_esc_x]
    have hs : stoi16 a b = none := by
      unfold stoi16
      rw [if_neg (by simp [hsp]), if_neg h43, if_neg h45, if_neg (by simp [ha])]
    rw [hs]
  · intro ha hb
    rw [decode_esc_x]
    have ha' : 48 ≤ a := by
      simp [isHexDigitB] at ha
      omega
    have hs : stoi16 a b = some ((hexVal a : Nat) : Int) := by
      unfold stoi16
      rw [if_neg (by simp [isSpaceB]; omega), if_neg (by omega),
        if_neg (by omega), if_pos ha, if_neg (by simp [hb])]
    rw [hs]
    have hm : Int.emod ((hexVal a : Nat) : Int) 256 = ((hexVal a : Nat) : Int) :=
      Int.emod_eq_of_lt (by positivity) (by exact_mod_cast (hexVal_lt a).trans (by norm_num))
    show (Int.emod ((hexVal a : Nat) : Int) 256).toNat :: decodeSpecialChars xs = _
    rw [hm, Int.toNat_natCast]
  · intro h1 h2
    exact decode_esc_other d xs h1 h2

/-- Witness for C9 (amended): the no-digit case at `"\xgg"` and the one-digit
case at `"\x1g"`. -/
theorem decode_malformed_escape_policy_witness :
    (isHexDigitB 103 = false ∧ isSpaceB 103 = false ∧ (103 : Nat) ≠ 43 ∧
      (103 : Nat) ≠ 45 ∧
      decodeSpecialChars [92, 120, 103, 103] =
        92 :: decodeSpecialChars [120, 103, 103]) ∧
    (isHexDigitB 49 = true ∧ isHexDigitB 103 = false ∧
      decodeSpecialChars [92, 120, 49, 103] = hexVal 49 :: decodeSpecialChars []) :=
  ⟨⟨by decide, by decide, by decide, by decide,
    (decode_malformed_escape_policy 103 103 0 []).1 (by decide) (by decide)
      (by decide) (by decide)⟩,
   ⟨by decide, by decide,
    (decode_malformed_escape_policy 49 103 0 []).2.1 (by decide) (by decide)⟩⟩

theorem code39CharOk_false (c : Nat)
    (h : islowerB c = true ∨ code39Allowed c = false) : code39CharOk c = false := by
  rcases h with h | h
  · have h' : 97 ≤ c ∧ c ≤ 122 := by simpa [islowerB] using h
    have hB : (isalphaB c && islowerB c) = true := by
      simp [isalphaB, islowerB, isupperB]
      omega
    simp [code39CharOk, hB]
  · have h' : ¬(65 ≤ c ∧ c ≤ 90) ∧ ¬(48 ≤ c ∧ c ≤ 57) ∧ c ≠ 45 ∧ c ≠ 46 ∧
        c ≠ 36 ∧ c ≠ 47 ∧ c ≠ 43 ∧ c ≠ 37 ∧ c ≠ 32 := by
      simp [code39Allowed, isupperB, isdigitB, not_or] at h
      omega
    by_cases hl : 97 ≤ c ∧ c ≤ 122
    · have hB : (isalphaB c && islowerB c) = true := by
        simp [isalphaB, islowerB, isupperB]
        omega
      simp [code39CharOk, hB]
    · have ht : toupperB c = c := by simp [toupperB, hl]
      have hA : (isalnumB (toupperB c) || c == 32 || c == 45 || c == 46 ||
          c == 36 || c == 47 || c == 43 || c == 37) = false := by
        rw [ht]
        simp [isalnumB, isalphaB, isupperB, islowerB, isdigitB]
        omega
      unfold code39CharOk
      rw [hA]
      simp

/-- C5.  Validator rules: empty data is always rejected; `EAN_13` accepts
exactly 12 or 13 ASCII digits; `CODE_39` rejects any string containing a
lowercase letter or a character outside uppercase letters, digits,
`- . $ / + %` and space (in particular `@`); `CODE_128`, `QR_CODE` and
`DATA_MATRIX` accept every non-empty string. -/
theorem validateData_rules (data : List Nat) (t : BarcodeType) :
    (data = [] → validateData data t = false) ∧
    (validateData data .EAN_13 = true ↔
      ((data.length = 12 ∨ data.length = 13) ∧ ∀ c ∈ data, isdigitB c = true)) ∧
    ((∃ c ∈ data, islowerB c = true ∨ code39Allowed c = false) →
      validateData data .CODE_39 = false) ∧
    (data ≠ [] →
      validateData data .CODE_128 = true ∧ validateData data .QR_CODE = true ∧
        validateData data .DATA_MATRIX = true) := by
  refine ⟨?_, ?_, ?_, ?_⟩
  · intro h
    subst h
    rfl
  · cases data with
    | nil => simp [validateData]
    | cons a l => simp [validateData, List.all_eq_true]
  · rintro ⟨c, hc, hbad⟩
    have hf := code39CharOk_false c hbad
    cases data with
    | nil => exact absurd hc (List.not_mem_nil c)
    | cons a l =>
        cases hall : (a :: l).all code39CharOk with
        | false => simp [validateData, hall]
        | true =>
            have := List.all_eq_true.mp hall c hc
            rw [hf] at this
            exact absurd this (by simp)
  · intro h
    cases data with
    | nil => exact absurd rfl h
    | cons a l => exact ⟨rfl, rfl, rfl⟩

/-- Witness for C5: empty data rejected; `"@"` rejected for Code 39; `"1"`
accepted for Code 128, QR, DataMatrix; and (via the iff) a 12-digit string
accepted for EAN-13. -/
theorem validateData_rules_witness :
    (([] : List Nat) = [] ∧ validateData [] .CODE_128 = false) ∧
    ((∃ c ∈ ([64] : List Nat), islowerB c = true ∨ code39Allowed c = false) ∧
      validateData [64] .CODE_39 = false) ∧
    (([49] : List Nat) ≠ [] ∧
      (validateData [49] .CODE_128 = true ∧ validateData [49] .QR_CODE = true ∧
        validateData [49] .DATA_MATRIX = true)) ∧
    validateData [48, 49, 50, 51, 52, 53, 54, 55, 56, 57, 48, 49] .EAN_13 = true :=
  ⟨⟨rfl, (validateData_rules [] .CODE_128).1 rfl⟩,
   ⟨by decide, (validateData_rules [64] .CODE_39).2.2.1 (by decide)⟩,
   ⟨by decide, (validateData_rules [49] .CODE_128).2.2.2 (by decide)⟩,
   (validateData_rules [48, 49, 50, 51, 52, 50, 51, 52, 53, 54, 55, 56]
       .EAN_13).2.1.mpr ⟨by decide, by decide⟩⟩

/-- C3.  Grid layout formula: with `columns` clamped to at least 1, the
position is exactly `x = startX + (index mod columns)*(width+spacing)` and
`y = startY - (index div columns)*(height+spacing)`; index 0 is always
`(startX, startY)`; and `calculateGridPosition(5, 3, 10, 0, 0, 50, 50)` is
`(120, -60)`. -/
theorem calculateGridPosition_formula (index columns : Int)
    (spacing startX startY width height : ℝ) (h : 0 ≤ index) :
    calculateGridPosition index columns spacing startX startY width height =
      ⟨startX + ((index % max columns 1 : Int) : ℝ) * (width + spacing),
       startY - ((index / max columns 1 : Int) : ℝ) * (height + spacing)⟩ ∧
    calculateGridPosition 0 columns spacing startX startY width height =
      ⟨startX, startY⟩ ∧
    calculateGridPosition 5 3 10 0 0 50 50 = ⟨120, -60⟩ := by
  have hcols : (if columns < 1 then 1 else columns) = max columns 1 := by
    rcases lt_or_le columns 1 with hc | hc
    · rw [if_pos hc, max_eq_right hc.le]
    · rw [if_neg (not_lt.mpr hc), max_eq_left hc]
  have hpos : (0 : Int) < max columns 1 := lt_of_lt_of_le zero_lt_one (le_max_right _ _)
  refine ⟨?_, ?_, ?_⟩
  · simp only [calculateGridPosition]
    rw [hcols, Int.tmod_eq_emod h hpos.le, Int.tdiv_eq_ediv h hpos.le]
  · simp [calculateGridPosition, Int.zero_tmod, Int.zero_tdiv]
  · have h1 : Int.tmod 5 3 = 2 := by decide
    have h2 : Int.tdiv 5 3 = 1 := by decide
    have h3 : ((5 : Int) < 1) = False := by simp
    simp only [calculateGridPosition, h3, if_false, show ¬((3:Int) < 1) by decide,
      if_neg, h1, h2]
    rw [GridPosition.mk.injEq]
    constructor <;> norm_num

/-- Witness for C3 at the claim's concrete scenario. -/
theorem calculateGridPosition_formula_witness :
    (0 : Int) ≤ 5 ∧ calculateGridPosition 5 3 10 0 0 50 50 = ⟨120, -60⟩ :=
  ⟨by decide, (calculateGridPosition_formula 5 3 10 0 0 50 50 (by decide)).2.2⟩

theorem code128b_value_nonneg (c : Nat) : 0 ≤ code128b_value c := by
  unfold code128b_value
  split_ifs with h
  · omega
  · omega

theorem code128b_value_le (c : Nat) : code128b_value c ≤ 95 := by
  unfold code128b_value
  split_ifs with h
  · omega
  · omega

theorem checksumAux_nonneg : ∀ (l : List Nat) (i : Nat), 0 ≤ checksumAux l i := by
  intro l
  induction l with
  | nil => intro i; simp [checksumAux]
  | cons c rest ih =>
      intro i
      have h1 : 0 ≤ code128b_value c * ((i : Int) + 1) :=
        mul_nonneg (code128b_value_nonneg c) (by positivity)
      have h2 := ih (i + 1)
      simp only [checksumAux]
      omega

theorem calculate_checksum_nonneg (data : List Nat) (s : Int) (h : 0 ≤ s) :
    0 ≤ calculate_checksum data s := by
  unfold calculate_checksum
  rw [Int.tmod_eq_emod (by have := checksumAux_nonneg data 0; omega) (by norm_num)]
  exact Int.emod_nonneg _ (by norm_num)

theorem calculate_checksum_lt (data : List Nat) (s : Int) (h : 0 ≤ s) :
    calculate_checksum data s < 103 := by
  unfold calculate_checksum
  rw [Int.tmod_eq_emod (by have := checksumAux_nonneg data 0; omega) (by norm_num)]
  exact Int.emod_lt_of_pos _ (by norm_num)

theorem checksumAux_enumFrom : ∀ (l : List Nat) (n : Nat),
    checksumAux l n =
      ((List.enumFrom n l).map fun p => code128b_value p.2 * ((p.1 : Int) + 1)).sum := by
  intro l
  induction l with
  | nil => intro n; simp [checksumAux]
  | cons c rest ih =>
      intro n
      simp [checksumAux, List.enumFrom_cons, ih (n + 1)]

/-- C4.  Code 128 checksum: `calculate_checksum(data, startValue)` is
`(startValue + Σ value(data[i]) * i) mod 103` over 1-indexed positions, with
`value(c) = c - 32` on `[32,127]` and 0 outside (no crash); the result lies in
`[0,102]`; and the generator invokes it with the START-B value 104, drawing
exactly the symbol sequence START-B, data values, checksum, STOP. -/
theorem calculate_checksum_spec (data : List Nat) (startValue : Int)
    (h : 0 ≤ startValue) :
    calculate_checksum data startValue =
      Int.emod (startValue +
        ((data.enum.map fun p => code128b_value p.2 * ((p.1 : Int) + 1)).sum)) 103 ∧
    0 ≤ calculate_checksum data startValue ∧
    calculate_checksum data startValue ≤ 102 ∧
    (∀ c : Nat, 32 ≤ c ∧ c ≤ 127 → code128b_value c = (c : Int) - 32) ∧
    (∀ c : Nat, ¬(32 ≤ c ∧ c ≤ 127) → code128b_value c = 0) ∧
    (∀ (w hgt m : Int) (mOk fOk : Bool) (img : PureCImage),
      barcode_generate_pure_c data w hgt m mOk fOk = Except.ok img →
      img.symbols =
        104 :: (data.map code128b_value ++ [calculate_checksum data 104, 106])) := by
  refine ⟨?_, calculate_checksum_nonneg data startValue h,
    by have := calculate_checksum_lt data startValue h; omega, ?_, ?_, ?_⟩
  · unfold calculate_checksum
    rw [Int.tmod_eq_emod (by have := checksumAux_nonneg data 0; omega) (by norm_num)]
    have he : data.enum = List.enumFrom 0 data := rfl
    rw [he, ← checksumAux_enumFrom data 0]
    rfl
  · intro c hc
    unfold code128b_value
    rw [if_pos hc]
  · intro c hc
    unfold code128b_value
    rw [if_neg hc]
  · intro w hgt m mOk fOk img himg
    have hfilter :
        ((data.map code128b_value).filter fun v => decide (0 ≤ v) && decide (v < 106)) =
          data.map code128b_value := by
      apply List.filter_eq_self.mpr
      intro v hv
      obtain ⟨c, _, rfl⟩ := List.mem_map.mp hv
      have h1 := code128b_value_nonneg c
      have h2 := code128b_value_le c
      simp
      omega
    have hchk : (0 : Int) ≤ calculate_checksum data 104 ∧
        calculate_checksum data 104 < 106 := by
      have := calculate_checksum_nonneg data 104 (by norm_num)
      have := calculate_checksum_lt data 104 (by norm_num)
      omega
    by_cases h1 : data.isEmpty
    · simp [barcode_generate_pure_c, h1] at himg
    · by_cases h2 : (data.length : Int) > 80
      · simp [barcode_generate_pure_c, h1, h2] at himg
      · by_cases h3 : mOk
        · by_cases h4 : fOk
          · simp only [barcode_generate_pure_c, h1, h2, h3, h4, if_false,
              Bool.not_true, Bool.false_eq_true, if_neg, Except.ok.injEq,
              Bool.not_eq_true] at himg
            rw [← himg]
            show 104 :: (_ ++ _ ++ [106]) = _
            rw [hfilter, if_pos hchk]
            simp
          · simp [barcode_generate_pure_c, h1, h2, h3, h4] at himg
        · simp [barcode_generate_pure_c, h1, h2, h3] at himg

/-- Witness for C4 at `data = "PA"` and the START-B start value 104. -/
theorem calculate_checksum_spec_witness :
    (0 : Int) ≤ 104 ∧ 0 ≤ calculate_checksum [80, 65] 104 ∧
      calculate_checksum [80, 65] 104 ≤ 102 :=
  ⟨by decide, (calculate_checksum_spec [80, 65] 104 (by decide)).2.1,
    (calculate_checksum_spec [80, 65] 104 (by decide)).2.2.1⟩

/-- C10.  Implicit length cap in the dependency-free Code 128 path: any input
longer than 80 characters is rejected with code `-2` before any buffer or file
work, the wrapper reports `"Data too long (max 80 characters)"`, and yet the
Code 128 validation rule accepts every non-empty string. -/
theorem pureC_length_cap (data : List Nat) (btype w hgt m : Int)
    (mOk fOk : Bool) (h : data.length > 80) :
    barcode_generate_pure_c data w hgt m mOk fOk = Except.error (-2) ∧
    barcode_generate_c data btype w hgt m mOk fOk =
      (-2, "Data too long (max 80 characters)") ∧
    (∀ d : List Nat, d ≠ [] → validateData d BarcodeType.CODE_128 = true) := by
  have hne : data.isEmpty = false := by
    cases data with
    | nil => simp at h
    | cons a l => rfl
  have hlen : (data.length : Int) > 80 := by exact_mod_cast h
  have h1 : barcode_generate_pure_c data w hgt m mOk fOk = Except.error (-2) := by
    simp [barcode_generate_pure_c, hne, hlen]
  refine ⟨h1, ?_, ?_⟩
  · simp [barcode_generate_c, h1, pureCErrorMessage]
  · intro d hd
    cases d with
    | nil => exact absurd rfl hd
    | cons a l => rfl

/-- Witness for C10 at an 81-character input. -/
theorem pureC_length_cap_witness :
    (List.replicate 81 65 : List Nat).length > 80 ∧
    barcode_generate_pure_c (List.replicate 81 65) 300 100 10 true true =
      Except.error (-2) :=
  ⟨by simp, (pureC_length_cap (List.replicate 81 65) 0 300 100 10 true true
    (by simp)).1⟩

/-- C2 counterexample.  The dependency-free path `barcode_generate_pure_c`
(one of the code paths the claim covers) does not honor dimension fidelity: a
successful call with 9 data characters, requested size 300 × 100 and margin 10
writes a 288 × 100 BMP — the width is recomputed as
`moduleWidth * totalModules + 2 * margin`, not the requested 300. -/
theorem pureC_dimension_counterexample :
    pureCDims (barcode_generate_pure_c [80, 65, 82, 84, 49, 50, 51, 52, 53]
      300 100 10 true true) = some (288, 100) ∧
    some ((288 : Int), (100 : Int)) ≠ some ((300 : Int), (100 : Int)) := by
  decide

theorem sum_map_const (n w : Nat) : ((List.range n).map fun _ => w).sum = n * w := by
  induction n with
  | zero => simp
  | succ k ih =>
      rw [List.range_succ, List.map_append, List.sum_append, ih]
      simp
      ring

theorem length_matrixPixels (mtx : BitMatrix) :
    (matrixPixels mtx).length = mtx.height * mtx.width := by
  unfold matrixPixels
  rw [List.length_flatMap]
  have : (List.map (List.length ∘ fun y =>
      (List.range mtx.width).map fun x => if mtx.get x y then 0 else 255)
      (List.range mtx.height)) = (List.range mtx.height).map fun _ => mtx.width := by
    apply List.map_congr_left
    intro y _
    simp
  rw [this, sum_map_const]

theorem length_scaleImage (src : List Nat) (sw sh dw dh : Nat) :
    (scaleImage src sw sh dw dh).length = dh * dw := by
  unfold scaleImage
  rw [List.length_flatMap]
  have : (List.map (List.length ∘ fun y => (List.range dw).map fun x =>
      src.getD ((y * sh / dh) * sw + x * sw / dw) 0) (List.range dh)) =
      (List.range dh).map fun _ => dw := by
    apply List.map_congr_left
    intro y _
    simp
  rw [this, sum_map_const]

/-- C2 (amended).  Dimension fidelity holds for the C++ path
`BarcodeGenerator::generate`: every successful call yields a raster of exactly
`config.width × config.height` pixels (rescaling nearest-neighbor when the
rendered matrix differs).  The dependency-free pure-C fallback instead writes
`2*margin + moduleWidth*totalModules × max(height, 60)`, which can differ from
the request (see the counterexample). -/
theorem generate_dimension_fidelity (data : List Nat) (config : BarcodeConfig)
    (writer : Except String BitMatrix) (writeOk : Bool) (img : RasterImage)
    (h : generate data config writer writeOk = Except.ok img) :
    (img.width : Int) = config.width ∧ (img.height : Int) = config.height ∧
    img.pixels.length = img.width * img.height := by
  unfold generate at h
  by_cases h1 : data.isEmpty
  · simp [h1] at h
  by_cases h2 : config.width ≤ 0 ∨ config.height ≤ 0
  · simp [h1, h2] at h
  by_cases h3 : validateData data config.type
  case neg => simp [h1, h2, h3] at h
  cases writer with
  | error e => simp [h1, h2, h3] at h
  | ok mtx =>
      by_cases h4 : writeOk
      case neg => simp [h1, h2, h3, h4] at h
      rcases not_or.mp h2 with ⟨hw, hh⟩
      have hwn : (config.width.toNat : Int) = config.width :=
        Int.toNat_of_nonneg (by omega)
      have hhn : (config.height.toNat : Int) = config.height :=
        Int.toNat_of_nonneg (by omega)
      by_cases h5 : mtx.width ≠ config.width.toNat ∨ mtx.height ≠ config.height.toNat
      · simp only [h1, h2, h3, h4, h5, Bool.not_eq_true, if_false, if_true,
          Bool.false_eq_true, Bool.not_false, if_pos, if_neg] at h
        rw [if_neg (by simp)] at h
        simp only [Except.ok.injEq] at h
        rw [← h]
        exact ⟨hwn, hhn, by rw [length_scaleImage, Nat.mul_comm]⟩
      · simp only [h1, h2, h3, h4, h5, Bool.not_eq_true, if_false, if_true,
          Bool.false_eq_true, Bool.not_false, if_pos, if_neg] at h
        rw [if_neg (by simp)] at h
        simp only [Except.ok.injEq] at h
        rcases not_or.mp h5 with ⟨hw5, hh5⟩
        rw [not_not] at hw5 hh5
        rw [← h]
        refine ⟨hwn, hhn, ?_⟩
        show (matrixPixels mtx).length = _
        rw [length_matrixPixels, hw5, hh5, Nat.mul_comm]

/-- Witness for C2 (amended): a concrete successful generation at config size
2 × 3 from a 1 × 1 writer matrix. -/
theorem generate_dimension_fidelity_witness :
    generate [65] ⟨BarcodeType.CODE_128, 2, 3, 0, true, 300⟩
        (Except.ok ⟨1, 1, fun _ _ => true⟩) true =
      Except.ok ⟨2, 3, [0, 0, 0, 0, 0, 0]⟩ ∧
    (((2 : Nat) : Int) = (2 : Int) ∧ ((3 : Nat) : Int) = (3 : Int) ∧
      ([0, 0, 0, 0, 0, 0] : List Nat).length = 2 * 3) :=
  ⟨rfl, generate_dimension_fidelity [65] ⟨BarcodeType.CODE_128, 2, 3, 0, true, 300⟩
    (Except.ok ⟨1, 1, fun _ _ => true⟩) true ⟨2, 3, [0, 0, 0, 0, 0, 0]⟩ rfl⟩

/-- C8.  Precondition order and error codes of `generate`: empty data fails
with `INVALID_DATA`; otherwise non-positive dimensions fail with
`INVALID_SIZE`; otherwise validator rejection fails with `INVALID_DATA` — in
exactly this order, each before any encoding work (the conclusion holds for
every writer oracle). -/
theorem generate_precondition_order (data : List Nat) (config : BarcodeConfig)
    (writer : Except String BitMatrix) (writeOk : Bool) :
    (data = [] →
      generate data config writer writeOk = Except.error ErrorCode.INVALID_DATA) ∧
    (data ≠ [] → (config.width ≤ 0 ∨ config.height ≤ 0) →
      generate data config writer writeOk = Except.error ErrorCode.INVALID_SIZE) ∧
    (data ≠ [] → 0 < config.width → 0 < config.height →
      validateData data config.type = false →
      generate data config writer writeOk = Except.error ErrorCode.INVALID_DATA) := by
  refine ⟨?_, ?_, ?_⟩
  · intro h
    subst h
    rfl
  · intro h1 h2
    have he : data.isEmpty = false := by
      cases data with
      | nil => exact absurd rfl h1
      | cons a l => rfl
    simp [generate, he, h2]
  · intro h1 hw hh hv
    have he : data.isEmpty = false := by
      cases data with
      | nil => exact absurd rfl h1
      | cons a l => rfl
    unfold generate
    rw [if_neg (by simp [he]), if_neg (by omega : ¬(config.width ≤ 0 ∨ config.height ≤ 0)),
      if_pos (by simp [hv])]

/-- Witness for C8: empty data; then `"@"` with width 0 (size error wins over
the validator); then `"@"` as Code 39 with positive dimensions (validator
rejection). -/
theorem generate_precondition_order_witness :
    (([] : List Nat) = [] ∧
      generate [] ⟨BarcodeType.CODE_39, 5, 5, 0, true, 300⟩ (Except.error "x") true =
        Except.error ErrorCode.INVALID_DATA) ∧
    (([64] : List Nat) ≠ [] ∧ ((0 : Int) ≤ 0 ∨ (5 : Int) ≤ 0) ∧
      generate [64] ⟨BarcodeType.CODE_39, 0, 5, 0, true, 300⟩ (Except.error "x") true =
        Except.error ErrorCode.INVALID_SIZE) ∧
    (([64] : List Nat) ≠ [] ∧ (0 : Int) < 5 ∧ (0 : Int) < 5 ∧
      validateData [64] BarcodeType.CODE_39 = false ∧
      generate [64] ⟨BarcodeType.CODE_39, 5, 5, 0, true, 300⟩ (Except.error "x") true =
        Except.error ErrorCode.INVALID_DATA) :=
  ⟨⟨rfl, (generate_precondition_order [] ⟨BarcodeType.CODE_39, 5, 5, 0, true, 300⟩
      (Except.error "x") true).1 rfl⟩,
   ⟨by decide, by norm_num,
    (generate_precondition_order [64] ⟨BarcodeType.CODE_39, 0, 5, 0, true, 300⟩
      (Except.error "x") true).2.1 (by decide) (by norm_num)⟩,
   ⟨by decide, by norm_num, by norm_num, by decide,
    (generate_precondition_order [64] ⟨BarcodeType.CODE_39, 5, 5, 0, true, 300⟩
      (Except.error "x") true).2.2 (by decide) (by norm_num) (by norm_num)
      (by decide)⟩⟩

theorem gridInsertLoop_spec (columns : Int) (params : GridLayoutParams)
    (insertOk : Nat → GridPosition → Bool) (lastErr : Nat → String) :
    ∀ (paths : List String) (i : Nat),
      (gridInsertLoop paths i columns params insertOk lastErr).1 +
        (gridInsertLoop paths i columns params insertOk lastErr).2.1 =
        (paths.length : Int) ∧
      ((gridInsertLoop paths i columns params insertOk lastErr).2.2.1.length : Int) =
        (gridInsertLoop paths i columns params insertOk lastErr).2.1 ∧
      ((gridInsertLoop paths i columns params insertOk lastErr).2.2.2.length : Int) =
        (gridInsertLoop paths i columns params insertOk lastErr).2.1 := by
  intro paths
  induction paths with
  | nil => intro i; simp [gridInsertLoop]
  | cons p rest ih =>
      intro i
      obtain ⟨ih1, ih2, ih3⟩ := ih (i + 1)
      simp only [gridInsertLoop]
      by_cases hok : insertOk i (calculateGridPosition (i : Int) columns
          params.spacing params.startX params.startY params.width params.height) = true
      · simp only [hok, if_true]
        refine ⟨?_, ih2, ih3⟩
        simp only [List.length_cons]
        push_cast
        omega
      · simp only [hok, if_false, Bool.false_eq_true]
        refine ⟨?_, ?_, ?_⟩ <;> simp only [List.length_cons] <;> push_cast <;> omega

theorem insertLoop_spec (insertOk : Nat → Bool) (lastErr : Nat → String) :
    ∀ (images : List BatchImageInfo) (i : Nat),
      (insertLoop images i insertOk lastErr).1 +
        (insertLoop images i insertOk lastErr).2.1 = (images.length : Int) ∧
      ((insertLoop images i insertOk lastErr).2.2.1.length : Int) =
        (insertLoop images i insertOk lastErr).2.1 ∧
      ((insertLoop images i insertOk lastErr).2.2.2.length : Int) =
        (insertLoop images i insertOk lastErr).2.1 := by
  intro images
  induction images with
  | nil => intro i; simp [insertLoop]
  | cons img rest ih =>
      intro i
      obtain ⟨ih1, ih2, ih3⟩ := ih (i + 1)
      simp only [insertLoop]
      by_cases hok : insertOk i = true
      · simp only [hok, if_true]
        refine ⟨?_, ih2, ih3⟩
        simp only [List.length_cons]
        push_cast
        omega
      · simp only [hok, if_false, Bool.false_eq_true]
        refine ⟨?_, ?_, ?_⟩ <;> simp only [List.length_cons] <;> push_cast <;> omega

/-- C6.  Batch aggregation invariants for both `batchInsertImagesGrid` and
`batchInsertImages`, for every input list (including the empty one) and every
behavior of the external insertion call: `totalCount = N`,
`successCount + failCount = totalCount`, `len(failedPaths) = failCount` and
`len(errorMessages) = failCount`; every item contributes exactly one outcome,
so one item's failure never aborts the remaining items. -/
theorem batchInsert_aggregation (imagePaths : List String)
    (params : GridLayoutParams) (insertOk : Nat → GridPosition → Bool)
    (lastErr : Nat → String) (images : List BatchImageInfo)
    (insertOk2 : Nat → Bool) (lastErr2 : Nat → String) :
    ((batchInsertImagesGrid imagePaths params insertOk lastErr).totalCount =
        (imagePaths.length : Int) ∧
      (batchInsertImagesGrid imagePaths params insertOk lastErr).successCount +
          (batchInsertImagesGrid imagePaths params insertOk lastErr).failCount =
        (batchInsertImagesGrid imagePaths params insertOk lastErr).totalCount ∧
      ((batchInsertImagesGrid imagePaths params insertOk lastErr).failedPaths.length :
          Int) =
        (batchInsertImagesGrid imagePaths params insertOk lastErr).failCount ∧
      ((batchInsertImagesGrid imagePaths params insertOk lastErr).errorMessages.length :
          Int) =
        (batchInsertImagesGrid imagePaths params insertOk lastErr).failCount) ∧
    ((batchInsertImages images insertOk2 lastErr2).totalCount =
        (images.length : Int) ∧
      (batchInsertImages images insertOk2 lastErr2).successCount +
          (batchInsertImages images insertOk2 lastErr2).failCount =
        (batchInsertImages images insertOk2 lastErr2).totalCount ∧
      ((batchInsertImages images insertOk2 lastErr2).failedPaths.length : Int) =
        (batchInsertImages images insertOk2 lastErr2).failCount ∧
      ((batchInsertImages images insertOk2 lastErr2).errorMessages.length : Int) =
        (batchInsertImages images insertOk2 lastErr2).failCount) := by
  constructor
  · by_cases he : imagePaths.isEmpty
    · rcases List.isEmpty_iff.mp he with rfl
      simp [batchInsertImagesGrid]
    · obtain ⟨s1, s2, s3⟩ := gridInsertLoop_spec
        (if params.columns < 1 then 1 else params.columns) params insertOk lastErr
        imagePaths 0
      simp only [batchInsertImagesGrid, he, if_false, Bool.false_eq_true]
      exact ⟨trivial, s1, s2, s3⟩
  · by_cases he : images.isEmpty
    · rcases List.isEmpty_iff.mp he with rfl
      simp [batchInsertImages]
    · obtain ⟨s1, s2, s3⟩ := insertLoop_spec insertOk2 lastErr2 images 0
      simp only [batchInsertImages, he, if_false, Bool.false_eq_true]
      exact ⟨trivial, s1, s2, s3⟩

theorem processLoop_spec (fileGood : String → Bool) :
    ∀ (files : List String) (current total : Nat),
      (processLoop files current total fileGood).1 =
        files.map (fun f => if fileGood f then BatchResult.mk f true ""
          else BatchResult.mk f false "File not found") ∧
      (processLoop files current total fileGood).2 =
        (List.range files.length).map fun k => (current + k + 1, total) := by
  intro files
  induction files with
  | nil => intro current total; simp [processLoop]
  | cons f rest ih =>
      intro current total
      obtain ⟨ih1, ih2⟩ := ih (current + 1) total
      simp only [processLoop, List.map_cons, List.length_cons]
      constructor
      · rw [ih1]
      · rw [ih2, List.range_succ_eq_map, List.map_cons, List.map_map]
        have htail : List.map ((fun k => (current + k + 1, total)) ∘ Nat.succ)
            (List.range rest.length) =
            List.map (fun k => (current + 1 + k + 1, total)) (List.range rest.length) :=
          List.map_congr_left fun k _ => by
            show (current + (k + 1) + 1, total) = (current + 1 + k + 1, total)
            have harith : current + (k + 1) + 1 = current + 1 + k + 1 := by omega
            rw [harith]
        rw [htail]

/-- C7.  `BatchProcessor::process` on a queue of `N` files returns exactly `N`
results, in input order, each item's outcome independent of the others, and
the progress trace is exactly `(1, N), (2, N), ..., (N, N)`: one invocation
per item, `current` strictly increasing from 1 to `N`, `total` constant. -/
theorem process_spec (files : List String) (config : BarcodeConfig)
    (fileGood : String → Bool) :
    (process files config fileGood).1.length = files.length ∧
    (process files config fileGood).1 =
      files.map (fun f => if fileGood f then BatchResult.mk f true ""
        else BatchResult.mk f false "File not found") ∧
    (process files config fileGood).1.map (fun r => r.filePath) = files ∧
    (process files config fileGood).2 =
      (List.range files.length).map fun k => (k + 1, files.length) := by
  obtain ⟨h1, h2⟩ := processLoop_spec fileGood files 0 files.length
  refine ⟨?_, h1, ?_, ?_⟩
  · show (processLoop files 0 files.length fileGood).1.length = _
    rw [h1, List.length_map]
  · show (processLoop files 0 files.length fileGood).1.map _ = files
    rw [h1, List.map_map]
    have hcomp : ∀ f ∈ files,
        ((fun r => BatchResult.filePath r) ∘ fun f =>
          if fileGood f then BatchResult.mk f true ""
          else BatchResult.mk f false "File not found") f = id f := by
      intro f _
      by_cases hf : fileGood f <;> simp [hf]
    rw [List.map_congr_left hcomp, List.map_id]
  · show (processLoop files 0 files.length fileGood).2 = _
    rw [h2]
    apply List.map_congr_left
    intro k _
    simp
